import Mathlib

/-!
Verification development for the raspberry-pi-camera-stream-manager repository.

The embedding below translates the core of `src/stream_proxy.py` and
`src/stream_mixer.py` into Lean:

* bytes are naturals, a delimited JPEG frame is a byte list;
* the frame-delimiting loop of `StreamProxy._buffer_stream` becomes the pure
  function `runChunks` over the list of chunks delivered by the HTTP read
  (the code stops reading at the first empty chunk, so the model ranges over
  the nonempty chunks actually delivered);
* the per-stream frame buffers are Python `queue.Queue(maxsize=2)` objects
  used through `put_nowait`/`get_nowait` with an evict-one-on-full retry;
  they become lists (head = oldest element) with `slotPut`/`fbGet`;
* decoded images are `Image` records with rational pixel values; the
  floating-point library calls `cv2.addWeighted` (per-pixel linear blend) and
  `cv2.resize` (modelled by nearest-neighbour sampling; only the resulting
  dimensions matter to the claims) act on them; `cv2.imdecode` and
  `cv2.imencode` are represented by handing the mixer `Option Image` inputs
  (a `none` is a missing or undecodable frame) and by storing decoded images
  directly in the output queue;
* one iteration of the body of `StreamMixer._mix_streams` (after the
  frame-rate sleep) becomes `mixTick`; wall-clock times are rationals;
* one iteration of the `while True` loop of `StreamProxy._buffer_stream`
  becomes `readerStep`, driven by a `ReaderEvent` describing what the network
  did during that iteration.
-/

namespace CamStream

/-- Raw stream bytes, one natural number (0..255) per byte. -/
abbrev Byte := Nat

/-- A delimited frame: a complete accumulated JPEG byte run
(`bytes_array` in `StreamProxy._buffer_stream`). -/
abbrev Frame := List Byte

/-- JPEG End-Of-Image marker `b'\xff\xd9'` (src/stream_proxy.py line 79). -/
def EOI : List Byte := [255, 217]

/-- Number of (two-byte) EOI marker occurrences inside a byte list, counted at
every adjacent position. -/
def countEOI : List Byte → Nat
  | a :: b :: rest => (if a = 255 ∧ b = 217 then 1 else 0) + countEOI (b :: rest)
  | _ => 0

/-- Count of the single possible EOI occurrence straddling the junction of two
byte lists. -/
def crossEOI (xs ys : List Byte) : Nat :=
  if xs.getLast? = some 255 ∧ ys.head? = some 217 then 1 else 0

/-- Frame-delimiting loop of `StreamProxy._buffer_stream`
(src/stream_proxy.py lines 75-90): append each chunk to the accumulator; when
the accumulator ends with the EOI marker, deliver it as a frame and clear it.
Returns the final accumulator and the list of delivered frames in order. -/
def runChunks (acc : List Byte) : List (List Byte) → List Byte × List Frame
  | [] => (acc, [])
  | c :: cs =>
    let acc2 := acc ++ c
    if EOI.isSuffixOf acc2 then
      let r := runChunks [] cs
      (r.1, acc2 :: r.2)
    else
      runChunks acc2 cs

/-- Alignment condition on a chunk sequence: every appended chunk creates a new
EOI occurrence only as the suffix of the accumulated buffer, i.e. every marker
occurrence in the byte stream is completed exactly at the end of a chunk. -/
def alignedRun (acc : List Byte) : List (List Byte) → Bool
  | [] => true
  | c :: cs =>
    let acc2 := acc ++ c
    if EOI.isSuffixOf acc2 then
      decide (countEOI acc2 = countEOI acc + 1) && alignedRun [] cs
    else
      decide (countEOI acc2 = countEOI acc) && alignedRun acc2 cs

/-- Non-blocking put used both for the per-stream frame buffers
(`Queue(maxsize=2)`, src/stream_proxy.py lines 80-90) and for the mixer output
queue (`Queue(maxsize=10)`, src/stream_mixer.py lines 138-148): `put_nowait`
if not full, otherwise `get_nowait` one element (dropping the oldest) and then
`put_nowait`. The list head is the oldest resident element. -/
def slotPut {α : Type} (cap : Nat) (q : List α) (x : α) : List α :=
  if q.length < cap then q ++ [x] else q.drop 1 ++ [x]

/-- Per-stream frame buffer put: capacity 2 (src/stream_proxy.py line 126). -/
def fbPut (buf : List Frame) (x : Frame) : List Frame := slotPut 2 buf x

/-- Non-blocking `get_nowait` on a frame buffer: remove and return the oldest
resident frame, or report empty. -/
def fbGet : List Frame → Option Frame × List Frame
  | [] => (none, [])
  | f :: rest => (some f, rest)

/-- Model of `StreamProxy.get_frame` (src/stream_proxy.py lines 105-114): the
registry of per-stream frame buffers is an association list keyed by stream
id; an unregistered id or an empty buffer yields `none` (the bare `except`
branch), otherwise the oldest resident frame is removed and returned. -/
def getFrame (reg : List (Nat × List Frame)) (sid : Nat) :
    Option Frame × List (Nat × List Frame) :=
  match reg.lookup sid with
  | none => (none, reg)
  | some buf =>
    let r := fbGet buf
    (r.1, reg.map fun p => if p.1 = sid then (p.1, r.2) else p)

/-- Decoded pixel image: the result of `cv2.imdecode` on a frame's bytes.
Pixel values are rationals (the float pipeline idealised over ℚ), stored
row-major; `height`/`width` mirror `frame.shape[:2]`. -/
structure Image where
  height : Nat
  width : Nat
  pix : List ℚ
deriving DecidableEq

/-- Dimensions of a decoded frame, `frame.shape[:2]` = (rows, cols). -/
def Image.dims (img : Image) : Nat × Nat := (img.height, img.width)

/-- Model of `np.zeros_like(frame)` (src/stream_mixer.py lines 102-105): same
shape and payload length, all pixels zero. -/
def Image.zerosLike (img : Image) : Image :=
  { height := img.height, width := img.width,
    pix := List.replicate img.pix.length 0 }

/-- Model of `cv2.resize(frame, (w, h))` (src/stream_mixer.py line 54) by
nearest-neighbour sampling; the claims depend only on the resulting
dimensions, which are exactly `(h, w)`. -/
def Image.resizeTo (img : Image) (h w : Nat) : Image :=
  { height := h, width := w,
    pix := (List.range (h * w)).map fun k =>
      img.pix.getD (k / w * img.height / h * img.width + k % w * img.width / w) 0 }

/-- Model of `cv2.addWeighted(f1, a, f2, b, 0)` (src/stream_mixer.py
line 123): the per-pixel linear blend `a*f1 + b*f2`. -/
def addWeighted (f1 : Image) (a : ℚ) (f2 : Image) (b : ℚ) : Image :=
  { height := f1.height, width := f1.width,
    pix := List.zipWith (fun x y => a * x + b * y) f1.pix f2.pix }

/-- Model of `StreamMixer._get_frame` (src/stream_mixer.py lines 33-60) after
the proxy fetch and `cv2.imdecode`, whose combined outcome is the `decoded`
argument (`none` = no data or decode failure). Sets `target_size` from the
first successfully decoded frame, and resizes any later frame whose
dimensions differ from the target. Returns the new target and the frame. -/
def getFrameStep (target : Option (Nat × Nat)) (decoded : Option Image) :
    Option (Nat × Nat) × Option Image :=
  match decoded with
  | none => (target, none)
  | some frame =>
    match target with
    | none => (some frame.dims, some frame)
    | some tsz =>
      if frame.dims = tsz then (some tsz, some frame)
      else (some tsz, some (frame.resizeTo tsz.1 tsz.2))

/-- Transition schedule of the mixer: `transition_interval` and
`transition_duration` in seconds (src/stream_mixer.py lines 12-16). -/
structure MixCfg where
  interval : ℚ
  duration : ℚ

/-- Mutable state of `StreamMixer` threaded through the mixing loop:
`current_stream`, `last_transition`, `target_size`, the per-source
last-good-frame caches `last_frame1`/`last_frame2` (locals of
`_mix_streams`), and the output `frame_queue` (decoded images stand in for
their JPEG encodings). The FPS bookkeeping fields do not affect any claim and
are omitted. -/
structure MixerState where
  current_stream : Nat
  last_transition : ℚ
  target_size : Option (Nat × Nat)
  last_frame1 : Option Image
  last_frame2 : Option Image
  frame_queue : List Image
deriving DecidableEq

/-- Cubic smoothstep easing `t*t*(3 - 2*t)` (src/stream_mixer.py line 119). -/
def easing (p : ℚ) : ℚ := p * p * (3 - 2 * p)

/-- Clamp to the unit interval, `min(1.0, max(0.0, x))`
(src/stream_mixer.py line 116). -/
def clamp01 (x : ℚ) : ℚ := min 1 (max 0 x)

/-- One iteration of the body of `StreamMixer._mix_streams`
(src/stream_mixer.py lines 81-148), taken after the frame-rate sleep: fetch
and decode both sources (`in1`/`in2` are the decode outcomes), update the
last-good caches, skip the tick if no frame is available at all, substitute a
black frame for a never-seen source, run the transition state machine, blend
or select, and push the output frame into the bounded output queue. Returns
the next state and the published frame (`none` when the tick was skipped). -/
def mixTick (cfg : MixCfg) (s : MixerState) (now : ℚ)
    (in1 in2 : Option Image) : MixerState × Option Image :=
  let r1 := getFrameStep s.target_size in1
  let r2 := getFrameStep r1.1 in2
  let tsz := r2.1
  let l1 := if r1.2.isSome then r1.2 else s.last_frame1
  let l2 := if r2.2.isSome then r2.2 else s.last_frame2
  match l1, l2 with
  | none, none => ({ s with target_size := tsz }, none)
  | g1, g2 =>
    let frame1 := g1.getD (Image.zerosLike (g2.getD (Image.mk 0 0 [])))
    let frame2 := g2.getD (Image.zerosLike frame1)
    let ts := now - s.last_transition
    if cfg.interval ≤ ts ∧ ts < cfg.interval + cfg.duration then
      let progress := clamp01 ((ts - cfg.interval) / cfg.duration)
      let t := easing progress
      let alpha := if s.current_stream = 2 then t else 1 - t
      let out := addWeighted frame1 (1 - alpha) frame2 alpha
      if 1 ≤ progress then
        ({ current_stream := 3 - s.current_stream, last_transition := now,
           target_size := tsz, last_frame1 := g1, last_frame2 := g2,
           frame_queue := slotPut 10 s.frame_queue out }, some out)
      else
        ({ s with
            target_size := tsz
            last_frame1 := g1
            last_frame2 := g2
            frame_queue := slotPut 10 s.frame_queue out }, some out)
    else
      let out := if s.current_stream = 2 then frame2 else frame1
      ({ s with
          target_size := tsz
          last_frame1 := g1
          last_frame2 := g2
          frame_queue := slotPut 10 s.frame_queue out }, some out)

/-- Iterated mixer ticks over a list of (time, decoded source 1, decoded
source 2) triples; returns the final state and the per-tick published
frames. -/
def runTicks (cfg : MixCfg) : MixerState → List (ℚ × Option Image × Option Image) →
    MixerState × List (Option Image)
  | s, [] => (s, [])
  | s, (now, i1, i2) :: rest =>
    let r := mixTick cfg s now i1 i2
    let rr := runTicks cfg r.1 rest
    (rr.1, r.2 :: rr.2)

/-- Iterated `getFrameStep` over a list of decode outcomes, threading the
target size; returns the final target and the list of returned frames. -/
def runGetFrames (target : Option (Nat × Nat)) :
    List (Option Image) → Option (Nat × Nat) × List (Option Image)
  | [] => (target, [])
  | d :: ds =>
    let r := getFrameStep target d
    let rest := runGetFrames r.1 ds
    (rest.1, r.2 :: rest.2)

/-- Retry maximum of the source reader, `self.max_retries = 3`
(src/stream_proxy.py line 22). -/
def maxRetries : Nat := 3

/-- State of one source-reader loop (`StreamProxy._buffer_stream`): the
consecutive-failure counter `retry_count`, the accumulation buffer
`bytes_array`, and the stream's frame buffer. -/
structure ReaderState where
  retry : Nat
  acc : List Byte
  buffer : List Frame
deriving DecidableEq

/-- Failure-counter update of `_buffer_stream` (src/stream_proxy.py
lines 52-58 and 94-100): increment, and reset to zero once the maximum is
exceeded (after the doubled backoff sleep). -/
def bumpRetry (s : ReaderState) : ReaderState :=
  if s.retry + 1 > maxRetries then { s with retry := 0 }
  else { s with retry := s.retry + 1 }

/-- Outcome of the network during one iteration of the reader loop:
`verifyFail` = the HEAD verification failed (unreachable or non-200);
`got code chunks errAtEnd` = verification succeeded and the streaming GET
returned `code`, delivering `chunks` and, when `errAtEnd`, ending in a
`requests.RequestException` mid-stream (for `code ≠ 200` nothing streams);
`connectError` = the GET call itself raised a `RequestException`;
`unexpectedError` = any other exception. -/
inductive ReaderEvent where
  | verifyFail : ReaderEvent
  | got : Nat → List (List Byte) → Bool → ReaderEvent
  | connectError : ReaderEvent
  | unexpectedError : ReaderEvent

/-- One iteration of the `while True` loop of `StreamProxy._buffer_stream`
(src/stream_proxy.py lines 49-103). Every branch sleeps and re-enters the
loop; no branch exits it or lets an exception escape, so the step is a total
function on reader states. A non-200 status on the streaming GET (line 67)
only sleeps: it does not touch the failure counter. -/
def readerStep (s : ReaderState) (e : ReaderEvent) : ReaderState :=
  match e with
  | .verifyFail => bumpRetry s
  | .got code chunks errAtEnd =>
    if code = 200 then
      let s1 : ReaderState := { s with retry := 0 }
      let r := runChunks s1.acc chunks
      let s2 : ReaderState :=
        { s1 with acc := r.1, buffer := r.2.foldl fbPut s1.buffer }
      if errAtEnd then bumpRetry s2 else s2
    else s
  | .connectError => bumpRetry s
  | .unexpectedError => s

/-- Loop guard of the mixer loop, `while self.running`
(src/stream_mixer.py line 69). -/
def mixerLoopGuard (running : Bool) : Bool := running

/-- Loop guard of a source-reader loop, `while True`
(src/stream_proxy.py line 49): it consults no flag at all. -/
def readerLoopGuard (_ : ReaderState) : Bool := true

/-- Control word of the mixer thread: the cooperative `running` flag. -/
structure MixerCtl where
  running : Bool

/-- Model of `StreamMixer.stop` (src/stream_mixer.py lines 174-179): clear the
running flag (the subsequent `join` waits for the loop to observe it). -/
def stopMixer (m : MixerCtl) : MixerCtl := { m with running := false }

/-- Reference transition schedule of the spec scenario: interval 30 s,
duration 3 s (the defaults of `StreamMixer.__init__`). -/
def cfg30 : MixCfg := { interval := 30, duration := 3 }

/-- Concrete 1-by-1 test frame standing for source A's decoded content. -/
def imgA : Image := { height := 1, width := 1, pix := [32] }

/-- Concrete 1-by-1 test frame standing for source B's decoded content. -/
def imgB : Image := { height := 1, width := 1, pix := [64] }

/-- Initial mixer state: `current_stream = 1`, `last_transition = 0` (the
construction time taken as the time origin), no target size, empty caches and
queue (src/stream_mixer.py lines 21-26 and 64-65). -/
def s0 : MixerState :=
  { current_stream := 1, last_transition := 0, target_size := none,
    last_frame1 := none, last_frame2 := none, frame_queue := [] }

/-- Run of the spec scenario of claim C1: schedule (30 s, 3 s), both sources
producing on every tick, ticks at t = 30.5 and t = 31.75 (inside the
transition window), t = 33 (the claimed completion instant) and t = 60 (the
claimed start of the reverse transition). -/
def c1run : MixerState × List (Option Image) :=
  runTicks cfg30 s0
    [(61/2, some imgA, some imgB), (127/4, some imgA, some imgB),
     (33, some imgA, some imgB), (60, some imgA, some imgB)]

/-- Mixer tick of the claim C2 failing input: transition tick at t = 30.75,
that is progress 1/4, while stream 1 is current and the target is stream 2. -/
def c2tick : MixerState × Option Image :=
  mixTick cfg30 s0 (123/4) (some imgA) (some imgB)

/-- C1: the code never completes a transition, refuted at the claim's own
schedule. The completion check `progress >= 1.0` (src/stream_mixer.py
line 127) runs only while `time_since_last < interval + duration`, but
`progress >= 1.0` needs `time_since_last >= interval + duration`, so the flip
of `current_stream` and the update of `last_transition` are unreachable. In
the scenario run (both sources producing, ticks at t = 30.5, 31.75, 33, 60):
the published output at t = 33 is still source A's unmodified frame (the
claim demands source B's), so is the output at t = 60 (the claim demands a
transition toward A to begin), and the final state still has
`current_stream = 1` and `last_transition = 0`. -/
theorem c1_transition_stuck :
    c1run.1.current_stream = 1 ∧ c1run.1.last_transition = 0
    ∧ c1run.2.getD 2 none = some imgA ∧ c1run.2.getD 3 none = some imgA := by
  norm_num [c1run, runTicks, mixTick, getFrameStep, Image.dims, easing,
    clamp01, addWeighted, slotPut, Image.zerosLike, cfg30, imgA, imgB, s0]

/-- C2: the blend coefficient is inverted, shown at the failing transition
tick t = 30.75 (progress 1/4, eased value 5/32) while stream 1 is current and
the target is stream 2. The code computes `alpha = t if current_stream == 2
else 1 - t` (src/stream_mixer.py line 122) with `current_stream` still the
origin stream, so alpha = 1 - 5/32 = 27/32 and the published pixel is 59,
whereas the claimed blend `(1-alpha)*A + alpha*B` with alpha equal to the
eased progress gives 37. At the later tick t = 32.25 (progress 3/4) the code's
output pixel is 37: the coefficient of the target frame decreases from 1
toward 0 during the window instead of increasing from 0 toward 1. -/
theorem c2_alpha_inverted :
    c2tick.2 = some { height := 1, width := 1, pix := [59] }
    ∧ addWeighted imgA (1 - easing (1/4)) imgB (easing (1/4))
        = { height := 1, width := 1, pix := [37] }
    ∧ easing (1/4) = 5/32
    ∧ (mixTick cfg30 c2tick.1 (129/4) (some imgA) (some imgB)).2
        = some { height := 1, width := 1, pix := [37] } := by
  norm_num [c2tick, mixTick, getFrameStep, Image.dims, easing, clamp01,
    addWeighted, slotPut, Image.zerosLike, cfg30, imgA, imgB, s0]

/-- C3 counterexample: the per-stream frame buffer is a two-slot FIFO
(`Queue(maxsize=2)`), not a single-slot cell. Putting frame `[1]` into a
buffer already holding `[0]` succeeds without evicting anything, leaving two
resident frames, and the immediately following get returns the older `[0]`,
not the frame just put. -/
theorem c3_counterexample :
    fbPut [[0]] [1] = [[0], [1]]
    ∧ (fbPut [[0]] [1]).length = 2
    ∧ (fbGet (fbPut [[0]] [1])).1 = some [0]
    ∧ ([0] : Frame) ≠ [1] := by decide

/-- C3 amended: every frame buffer holds at most two resident frames; `put`
never blocks and always succeeds, evicting the oldest frame exactly when the
buffer is full and appending otherwise; a `get` immediately following a `put`
into an empty buffer returns exactly the frame that put stored; and a `get`
on an empty buffer returns empty. -/
theorem c3_amended (buf : List Frame) (x : Frame) (h : buf.length ≤ 2) :
    (fbPut buf x).length ≤ 2
    ∧ fbPut [] x = [x]
    ∧ (fbGet (fbPut [] x)).1 = some x
    ∧ (fbGet ([] : List Frame)).1 = none
    ∧ (buf.length = 2 → fbPut buf x = buf.drop 1 ++ [x])
    ∧ (buf.length < 2 → fbPut buf x = buf ++ [x]) := by
  refine ⟨?_, rfl, rfl, rfl, fun h2 => ?_, fun h2 => ?_⟩
  · unfold fbPut slotPut
    split
    · simp only [List.length_append, List.length_cons, List.length_nil]
      omega
    · simp only [List.length_append, List.length_drop, List.length_cons,
        List.length_nil]
      omega
  · unfold fbPut slotPut
    rw [if_neg]
    omega
  · unfold fbPut slotPut
    rw [if_pos h2]

/-- C3 witness: the amended buffer contract applied to a buffer holding one
frame. -/
theorem c3_witness : (fbPut [[5]] [7]).length ≤ 2 :=
  (c3_amended [[5]] [7] (by decide)).1

/-- Helper: EOI occurrences in a concatenation are those of the parts plus
the possible single occurrence straddling the junction. -/
theorem countEOI_append : ∀ xs ys : List Byte,
    countEOI (xs ++ ys) = countEOI xs + countEOI ys + crossEOI xs ys
  | [], ys => by simp [countEOI, crossEOI]
  | [a], ys => by
    cases ys with
    | nil => simp [countEOI, crossEOI]
    | cons y ys =>
      simp only [List.singleton_append, countEOI, crossEOI,
        List.getLast?_singleton, List.head?_cons, Option.some.injEq]
      split <;> omega
  | a :: b :: t, ys => by
    simp only [List.cons_append, countEOI, List.append_eq]
    have ih := countEOI_append (b :: t) ys
    rw [List.cons_append] at ih
    rw [ih]
    have hcross : crossEOI (a :: b :: t) ys = crossEOI (b :: t) ys := by
      simp [crossEOI, List.getLast?_cons_cons]
    rw [hcross]
    ring

/-- Helper: a byte run ending with the EOI marker ends in the byte 0xD9. -/
theorem getLast?_of_suffixEOI (l : List Byte) (h : EOI.isSuffixOf l = true) :
    l.getLast? = some 217 := by
  rw [List.isSuffixOf_iff_suffix] at h
  obtain ⟨u, rfl⟩ := h
  show (u ++ ([255] ++ [217])).getLast? = some 217
  rw [← List.append_assoc]
  exact List.getLast?_concat _

/-- Helper: a byte run ending with the EOI marker contains at least one
occurrence of it. -/
theorem one_le_countEOI_of_suffix (l : List Byte)
    (h : EOI.isSuffixOf l = true) : 1 ≤ countEOI l := by
  rw [List.isSuffixOf_iff_suffix] at h
  obtain ⟨u, rfl⟩ := h
  rw [countEOI_append]
  have h1 : countEOI EOI = 1 := rfl
  omega

/-- Helper: the delimiter never delivers more frames than there are EOI
occurrences in the accumulated input. -/
theorem runChunks_le : ∀ (acc : List Byte) (cs : List (List Byte)),
    (runChunks acc cs).2.length ≤ countEOI (acc ++ cs.flatten)
  | acc, [] => by simp [runChunks]
  | acc, c :: cs => by
    simp only [runChunks, List.flatten_cons]
    by_cases h : EOI.isSuffixOf (acc ++ c) = true
    · rw [if_pos h]
      have h1 := one_le_countEOI_of_suffix _ h
      have h2 := runChunks_le [] cs
      simp only [List.nil_append] at h2
      rw [← List.append_assoc, countEOI_append]
      simp only [List.length_cons]
      omega
    · rw [if_neg h]
      have h2 := runChunks_le (acc ++ c) cs
      rw [← List.append_assoc]
      exact h2

/-- Helper: every frame the delimiter delivers ends with the EOI marker. -/
theorem runChunks_suffix : ∀ (acc : List Byte) (cs : List (List Byte)),
    ∀ f ∈ (runChunks acc cs).2, EOI.isSuffixOf f = true
  | acc, [], f, hf => by simp [runChunks] at hf
  | acc, c :: cs, f, hf => by
    simp only [runChunks] at hf
    by_cases h : EOI.isSuffixOf (acc ++ c) = true
    · rw [if_pos h] at hf
      simp only [List.mem_cons] at hf
      rcases hf with rfl | hf
      · exact h
      · exact runChunks_suffix [] cs f hf
    · rw [if_neg h] at hf
      exact runChunks_suffix (acc ++ c) cs f hf

/-- Helper: the delivered frames followed by the unflushed remainder
reconstitute the accumulated input byte stream. -/
theorem runChunks_flatten : ∀ (acc : List Byte) (cs : List (List Byte)),
    ((runChunks acc cs).2).flatten ++ (runChunks acc cs).1 = acc ++ cs.flatten
  | acc, [] => by simp [runChunks]
  | acc, c :: cs => by
    simp only [runChunks, List.flatten_cons]
    by_cases h : EOI.isSuffixOf (acc ++ c) = true
    · rw [if_pos h]
      simp only [List.flatten_cons, List.append_assoc]
      rw [runChunks_flatten [] cs]
      simp
    · rw [if_neg h]
      rw [runChunks_flatten (acc ++ c) cs]
      simp
/-- Helper: under the chunk-alignment condition the delimiter delivers one
frame per EOI occurrence. -/
theorem runChunks_exact : ∀ (acc : List Byte) (cs : List (List Byte)),
    alignedRun acc cs = true → countEOI acc = 0 →
    (runChunks acc cs).2.length = countEOI (acc ++ cs.flatten)
  | acc, [], ha, h0 => by simp [runChunks, h0]
  | acc, c :: cs, ha, h0 => by
    simp only [alignedRun] at ha
    simp only [runChunks, List.flatten_cons]
    by_cases h : EOI.isSuffixOf (acc ++ c) = true
    · rw [if_pos h] at ha ⊢
      simp only [Bool.and_eq_true, decide_eq_true_eq] at ha
      obtain ⟨ha1, ha2⟩ := ha
      have hrec := runChunks_exact [] cs ha2 rfl
      simp only [List.nil_append] at hrec
      have hlast : (acc ++ c).getLast? = some 217 := getLast?_of_suffixEOI _ h
      have hcross : crossEOI (acc ++ c) cs.flatten = 0 := by
        simp [crossEOI, hlast]
      rw [← List.append_assoc, countEOI_append, hcross, ha1, h0]
      simp only [List.length_cons]
      omega
    · rw [if_neg h] at ha ⊢
      simp only [Bool.and_eq_true, decide_eq_true_eq] at ha
      obtain ⟨ha1, ha2⟩ := ha
      have hrec := runChunks_exact (acc ++ c) cs ha2 (by rw [ha1, h0])
      rw [← List.append_assoc]
      exact hrec

/-- C4 counterexample: the single chunk `[0xFF, 0xD9, 0x00]` contains exactly
one EOI occurrence, but because the accumulated buffer does not end with the
marker after the chunk is appended (the check is `bytes_array.endswith`,
src/stream_proxy.py line 79), the delimiter delivers zero frames. -/
theorem c4_counterexample :
    (runChunks [] [[255, 217, 0]]).2 = [] ∧ countEOI [255, 217, 0] = 1 := by
  decide

/-- C4 amended: for a byte stream delivered as chunks with exactly K EOI
occurrences, the delimiter delivers at most K frames, each delivered frame
ends with the EOI marker and is the accumulated byte run up to and including
it (the frames followed by the unflushed remainder reconstitute the input);
when every EOI occurrence is completed exactly at the end of a chunk, exactly
K frames are delivered. -/
theorem c4_delimiter (chunks : List (List Byte)) :
    (runChunks [] chunks).2.length ≤ countEOI chunks.flatten
    ∧ (∀ f ∈ (runChunks [] chunks).2, EOI.isSuffixOf f = true)
    ∧ ((runChunks [] chunks).2).flatten ++ (runChunks [] chunks).1
        = chunks.flatten
    ∧ (alignedRun [] chunks = true →
        (runChunks [] chunks).2.length = countEOI chunks.flatten) := by
  refine ⟨?_, runChunks_suffix [] chunks, ?_, fun ha => ?_⟩
  · have h := runChunks_le [] chunks
    simpa using h
  · have h := runChunks_flatten [] chunks
    simpa using h
  · have h := runChunks_exact [] chunks ha rfl
    simpa using h

/-- C4 witness: a three-chunk stream with two aligned EOI occurrences (one of
them split across two chunks) yields exactly two frames. -/
theorem c4_witness :
    (runChunks [] [[1, 255, 217], [255], [217]]).2.length
      = countEOI ([[1, 255, 217], [255], [217]] : List (List Byte)).flatten :=
  (c4_delimiter [[1, 255, 217], [255], [217]]).2.2.2 (by decide)

/-- C5 counterexample: with source A failed from the start (no cached frame,
its hold-over trivially exhausted) and source B producing, a steady-state
tick at t = 10 with stream 1 still current publishes a black frame
(`np.zeros_like` of B, src/stream_mixer.py line 103), not source B's
content. -/
theorem c5_counterexample :
    (mixTick cfg30 s0 10 none (some imgB)).2
        = some { height := 1, width := 1, pix := [0] }
    ∧ ({ height := 1, width := 1, pix := [0] } : Image) ≠ imgB := by
  norm_num [mixTick, getFrameStep, Image.dims, easing, clamp01, addWeighted,
    slotPut, Image.zerosLike, cfg30, imgB, s0]

/-- Helper: `_get_frame` on a missing or undecodable frame returns nothing
and leaves the target size untouched. -/
theorem getFrameStep_none_eq (t : Option (Nat × Nat)) :
    getFrameStep t none = (t, none) := rfl

/-- Helper: `_get_frame` on a successfully decoded frame always returns a
frame (the original, or its resize to the established target). -/
theorem getFrameStep_some_snd (t : Option (Nat × Nat)) (b : Image) :
    ∃ b2, (getFrameStep t (some b)).2 = some b2 := by
  cases t with
  | none => exact ⟨b, rfl⟩
  | some tsz =>
    by_cases hd : b.dims = tsz
    · exact ⟨b, by simp [getFrameStep, hd]⟩
    · exact ⟨b.resizeTo tsz.1 tsz.2, by simp [getFrameStep, hd]⟩

/-- C5 amended: once source A's cached-frame hold-over is exhausted, a tick
on which source B yields a frame is never skipped — the mixing loop publishes
a frame without crash or stall — and outside a transition window the
published output is exactly source B's fetched frame (B's decoded frame,
resized to the established target size when its dimensions differ) whenever
stream 2 is the current stream, and a black frame with that fetched frame's
dimensions while stream 1 is current. This holds at every tick of the
scenario: before the target size is established, while it equals B's
dimensions, and when it differs. -/
theorem c5_amended (cfg : MixCfg) (s : MixerState) (now : ℚ) (b : Image)
    (h1 : s.last_frame1 = none) :
    ((mixTick cfg s now none (some b)).2).isSome = true
    ∧ (¬ (cfg.interval ≤ now - s.last_transition ∧
          now - s.last_transition < cfg.interval + cfg.duration) →
        (mixTick cfg s now none (some b)).2
          = some (if s.current_stream = 2
              then ((getFrameStep s.target_size (some b)).2).getD b
              else Image.zerosLike
                (((getFrameStep s.target_size (some b)).2).getD b))) := by
  obtain ⟨b2, hb2⟩ := getFrameStep_some_snd s.target_size b
  constructor
  · simp only [mixTick, getFrameStep_none_eq, hb2, h1, Option.isSome_some,
      Option.isSome_none, Bool.false_eq_true, if_true, if_false, ite_true,
      ite_false]
    split
    · split <;> rfl
    · rfl
  · intro hcond
    simp only [mixTick, getFrameStep_none_eq, hb2, h1, Option.getD_some,
      Option.isSome_some, Option.isSome_none, Bool.false_eq_true, if_true,
      if_false, ite_true, ite_false]
    rw [if_neg hcond]
    exact rfl

/-- C5 witness: a steady-state tick deep in the scenario — the target size is
already established (set from B's earlier frames, matching B's dimensions)
and A's cache is empty — still publishes a frame. -/
theorem c5_witness :
    ((mixTick cfg30
        { current_stream := 1, last_transition := 0, target_size := some (1, 1),
          last_frame1 := none, last_frame2 := some imgB, frame_queue := [] }
        10 none (some imgB)).2).isSome = true :=
  (c5_amended cfg30
    { current_stream := 1, last_transition := 0, target_size := some (1, 1),
      last_frame1 := none, last_frame2 := some imgB, frame_queue := [] }
    10 imgB rfl).1

/-- C6: on a tick where neither source yields a frame and neither source has
a cached last-good frame, the mixing loop hits the skip branch
(src/stream_mixer.py lines 96-99): it publishes nothing and leaves the whole
mixer state, in particular the output frame queue, unchanged. -/
theorem c6_skip (cfg : MixCfg) (s : MixerState) (now : ℚ)
    (h1 : s.last_frame1 = none) (h2 : s.last_frame2 = none) :
    mixTick cfg s now none none = (s, none) := by
  obtain ⟨cs, lt, tsz, lf1, lf2, q⟩ := s
  simp only [MixerState.last_frame1] at h1
  simp only [MixerState.last_frame2] at h2
  subst h1
  subst h2
  simp [mixTick, getFrameStep]

/-- C6 witness: the skip tick evaluated at the initial mixer state. -/
theorem c6_witness : mixTick cfg30 s0 5 none none = (s0, none) :=
  c6_skip cfg30 s0 5 rfl rfl

/-- Helper: once the target size is set, `_get_frame` never changes it. -/
theorem getFrameStep_some_fst (t0 : Nat × Nat) (d : Option Image) :
    (getFrameStep (some t0) d).1 = some t0 := by
  cases d with
  | none => rfl
  | some img =>
    simp only [getFrameStep]
    split <;> rfl

/-- Helper: any frame returned by `_get_frame` has the dimensions recorded in
the resulting target size. -/
theorem getFrameStep_dims (t : Option (Nat × Nat)) (d : Option Image)
    (img : Image) (h : (getFrameStep t d).2 = some img) :
    (getFrameStep t d).1 = some img.dims := by
  cases d with
  | none => simp [getFrameStep] at h
  | some f =>
    cases t with
    | none =>
      simp only [getFrameStep, Option.some.injEq] at h ⊢
      rw [← h]
    | some tsz =>
      by_cases hd : f.dims = tsz
      · simp only [getFrameStep] at h ⊢
        rw [if_pos hd] at h ⊢
        simp only [Option.some.injEq] at h
        rw [← h, ← hd]
      · simp only [getFrameStep] at h ⊢
        rw [if_neg hd] at h ⊢
        simp only [Option.some.injEq] at h
        rw [← h]
        simp [Image.resizeTo, Image.dims]

/-- Helper: a set target size survives any run of `_get_frame` calls. -/
theorem runGetFrames_some_fst (t0 : Nat × Nat) :
    ∀ ds : List (Option Image), (runGetFrames (some t0) ds).1 = some t0
  | [] => rfl
  | d :: ds => by
    simp only [runGetFrames]
    rw [getFrameStep_some_fst]
    exact runGetFrames_some_fst t0 ds

/-- Helper: every frame a run of `_get_frame` calls returns has the final
target dimensions. -/
theorem runGetFrames_dims (t : Option (Nat × Nat)) :
    ∀ ds : List (Option Image), ∀ o ∈ (runGetFrames t ds).2, ∀ img,
      o = some img → some img.dims = (runGetFrames t ds).1
  | [], o, ho, img, h => by simp [runGetFrames] at ho
  | d :: ds, o, ho, img, h => by
    simp only [runGetFrames, List.mem_cons] at ho ⊢
    rcases ho with ho | ho
    · subst ho
      rw [getFrameStep_dims t d img h, runGetFrames_some_fst]
    · exact runGetFrames_dims (getFrameStep t d).1 ds o ho img h

/-- Helper: starting from an unset target, the final target size is the
dimensions of the first successfully decoded frame of the run. -/
theorem runGetFrames_none_fst :
    ∀ ds : List (Option Image),
      (runGetFrames none ds).1 = ((ds.findSome? fun x => x).map Image.dims)
  | [] => rfl
  | none :: ds => by
    simp only [runGetFrames, getFrameStep, List.findSome?]
    exact runGetFrames_none_fst ds
  | some img :: ds => by
    simp only [runGetFrames, getFrameStep, List.findSome?]
    rw [runGetFrames_some_fst]
    rfl

/-- C7: `target_size` is assigned exactly once, from the dimensions of the
first successfully decoded frame of a run, and is never changed afterwards;
every frame returned by `_get_frame` has dimensions equal to the recorded
target (frames with different dimensions are resized to it,
src/stream_mixer.py lines 49-56). -/
theorem c7_target (tsz : Option (Nat × Nat)) (d : Option Image)
    (ds : List (Option Image)) :
    (∀ t0, tsz = some t0 → (getFrameStep tsz d).1 = some t0)
    ∧ (∀ img, tsz = none → d = some img →
        getFrameStep tsz d = (some img.dims, some img))
    ∧ (∀ img, (getFrameStep tsz d).2 = some img →
        (getFrameStep tsz d).1 = some img.dims)
    ∧ (runGetFrames none ds).1 = ((ds.findSome? fun x => x).map Image.dims)
    ∧ (∀ o ∈ (runGetFrames none ds).2, ∀ img, o = some img →
        some img.dims = (runGetFrames none ds).1) := by
  refine ⟨?_, ?_, ?_, runGetFrames_none_fst ds, runGetFrames_dims none ds⟩
  · rintro t0 rfl
    exact getFrameStep_some_fst t0 d
  · rintro img rfl rfl
    rfl
  · exact fun img h => getFrameStep_dims tsz d img h

/-- C7 witness: a decoded frame whose dimensions differ from the set target
is resized to the target. -/
theorem c7_witness :
    (getFrameStep (some (2, 2)) (some imgA)).1
      = some ((imgA.resizeTo 2 2).dims) :=
  (c7_target (some (2, 2)) (some imgA) []).2.2.1 (imgA.resizeTo 2 2) rfl

/-- C8 counterexample: a non-success HTTP status on the streaming GET (here
500, after a successful verification) leaves the failure counter unchanged at
1, whereas the claim requires every non-success status to increment it. -/
theorem c8_counterexample :
    readerStep { retry := 1, acc := [], buffer := [] } (.got 500 [] false)
      = { retry := 1, acc := [], buffer := [] } := rfl

/-- C8 amended: the reader loop never terminates and never propagates an
exception (every event maps to a successor state); a verification failure and
a connect error increment the failure counter, resetting it to zero once it
exceeds the maximum of 3; a successful connection resets it to zero; a
mid-stream read error after a successful connection leaves it at 1 (increment
of the just-reset counter); but a non-success HTTP status on the streaming
GET, and an unexpected error, leave the counter unchanged. Each failure is
followed by a backoff delay and a reconnection attempt (the loop re-enters). -/
theorem c8_amended (s : ReaderState) (c : Nat) (chunks : List (List Byte))
    (e : Bool) (hc : c ≠ 200) :
    (readerStep s .verifyFail).retry
        = (if s.retry + 1 > maxRetries then 0 else s.retry + 1)
    ∧ readerStep s (.got c chunks e) = s
    ∧ (readerStep s (.got 200 chunks false)).retry = 0
    ∧ (readerStep s (.got 200 chunks true)).retry = 1
    ∧ (readerStep s .connectError).retry
        = (if s.retry + 1 > maxRetries then 0 else s.retry + 1)
    ∧ (readerStep s .unexpectedError).retry = s.retry := by
  refine ⟨?_, ?_, ?_, ?_, ?_, rfl⟩
  · simp only [readerStep, bumpRetry]
    split <;> rfl
  · simp [readerStep, hc]
  · simp [readerStep]
  · simp [readerStep, bumpRetry, maxRetries]
  · simp only [readerStep, bumpRetry]
    split <;> rfl

/-- C8 witness: the amended counter contract at a concrete non-success GET
status. -/
theorem c8_witness :
    readerStep { retry := 2, acc := [], buffer := [] } (.got 404 [] false)
      = { retry := 2, acc := [], buffer := [] } :=
  (c8_amended { retry := 2, acc := [], buffer := [] } 404 [] false
    (by decide)).2.1

/-- C9 counterexample: the per-source reader worker runs `while True`
(src/stream_proxy.py line 49): its loop guard is constantly true and consults
no running flag, so clearing any flag cannot make this worker's loop exit. -/
theorem c9_counterexample :
    readerLoopGuard { retry := 0, acc := [], buffer := [] } = true := rfl

/-- C9 amended: the mixer loop's guard is exactly its running flag, so
clearing the flag (what `StreamMixer.stop` does before joining the thread)
makes the loop exit at its next iteration check; the per-source reader loops,
by contrast, have no running flag and their guard is constantly true — they
never exit and are abandoned as daemon threads at process exit. -/
theorem c9_amended (m : MixerCtl) (b : Bool) (s : ReaderState) :
    mixerLoopGuard b = b
    ∧ mixerLoopGuard (stopMixer m).running = false
    ∧ readerLoopGuard s = true := ⟨rfl, rfl, rfl⟩

/-- C10: `StreamProxy.get_frame` is total (the bare `except` returns `None`):
it returns `none` when the stream id has no registered buffer and when the
registered buffer is empty, and otherwise removes and returns the oldest
frame resident in that stream's buffer. -/
theorem c10_get_frame (reg : List (Nat × List Frame)) (sid : Nat) :
    (reg.lookup sid = none → getFrame reg sid = (none, reg))
    ∧ (reg.lookup sid = some [] → (getFrame reg sid).1 = none)
    ∧ (∀ f bs, reg.lookup sid = some (f :: bs) →
        (getFrame reg sid).1 = some f) := by
  refine ⟨fun h => ?_, fun h => ?_, fun f bs h => ?_⟩ <;>
    simp [getFrame, h, fbGet]

/-- C10 witness: a registered one-frame buffer yields its frame. -/
theorem c10_witness : (getFrame [(1, [[9]])] 1).1 = some [9] :=
  (c10_get_frame [(1, [[9]])] 1).2.2 [9] [] (by decide)

end CamStream
